import Mathlib

/-!
# Verification of the react-audio-visualizer bucketing engine

Shallow embedding of the repository's core logic:

* `getFrequencyBinRange` — frequency range → bin index range
  (`AudioSpectrumAnalyzer.tsx` / `src/unnamed/part_001`, identical in both).
* `linearBarRange` / `linearBarValue` / `updateFrequencyBars` — the linear
  bucketing aggregation of `updateFrequencyData` in `src/unnamed/part_001`.
* `logBarBinRange` / `logBarValue` — the logarithmic bucketing aggregation of
  `updateFrequencyData` in `AudioSpectrumAnalyzer.tsx`.  The floating-point
  boundary frequencies `10 ** (logMin + i * logStep)` are abstracted as a
  parameter `freqOf : ℕ → ℚ`; the source computes bar `i`'s `freqEnd` and bar
  `i+1`'s `freqStart` by the same expression `10 ** (logMin + (i+1) * logStep)`,
  so a single boundary sequence is a faithful model.
* `normalizedVolume` / `calculateMaxVisibleBars` / `pushHistory` — the volume
  reduction and the rolling-history update of `logData` and
  `calculateMaxVisibleBars` in `LinearHistoricalVolumeVisualizer`
  (`src/unnamed/part_000`).
* `Spectrum` / `Volume` namespaces — operational models of the sampling loops:
  `requestAnimationFrame` scheduling is modelled by a queue of pending
  callback ids (ids start at 1, since the source tests the ref for JS
  truthiness and browser callback ids are positive).

JS numbers are modelled as ℚ (all the arithmetic the claims touch is exact on
the concrete inputs used); `Math.floor` / `Math.ceil` are `Int.floor` /
`Int.ceil`.  A JS out-of-range array read yields `undefined`; the model
totalizes indexing with a default of `0` and the theorems only use in-range
indices.
-/

/-- Bin index range, as returned by `getFrequencyBinRange`. -/
structure BinRange where
  startBin : ℤ
  endBin : ℤ
deriving DecidableEq, Repr

/-- `getFrequencyBinRange(sampleRate, bufferLength)` from
`AudioSpectrumAnalyzer.tsx` lines 90–108 (identical in `src/unnamed/part_001`).
`fftSize`, `minFrequencyHz`, `maxFrequencyKHz` are the component props captured
by the closure; `none` models an `undefined` prop. -/
def getFrequencyBinRange (fftSize : ℚ) (minFrequencyHz maxFrequencyKHz : Option ℚ)
    (sampleRate : ℚ) (bufferLength : ℤ) : BinRange :=
  if minFrequencyHz = none ∧ maxFrequencyKHz = none then ⟨0, bufferLength⟩
  else
    let minFreq := minFrequencyHz.getD 0
    let maxFreq := (maxFrequencyKHz.getD (sampleRate / 2000)) * 1000
    let startBin := Int.floor (minFreq * fftSize / sampleRate)
    let endBin := Int.ceil (maxFreq * fftSize / sampleRate)
    ⟨max 0 startBin, min endBin bufferLength⟩

/-- Per-bar bin sub-range in the logarithmic bucketing of
`updateFrequencyData` (`AudioSpectrumAnalyzer.tsx` lines 136–153).
`freqOf i` models the boundary frequency `10 ** (logMin + i * logStep)`:
bar `index` has `freqStart = freqOf index` and `freqEnd = freqOf (index+1)`
(the source computes both by the same expression). -/
def logBarBinRange (freqOf : ℕ → ℚ) (fftSize sampleRate : ℚ)
    (startBin endBin : ℤ) (barCount index : ℕ) : ℤ × ℤ :=
  let rangeStartIdx := max startBin (Int.floor (freqOf index * fftSize / sampleRate))
  let rangeEndIdx := min endBin
    (if index = barCount - 1 then endBin
     else Int.ceil (freqOf (index + 1) * fftSize / sampleRate))
  (rangeStartIdx, rangeEndIdx)

/-- Boundary frequencies produced by the source for `minFrequencyHz = 100`,
`maxFrequencyKHz = 10`, `barCount = 2`: `logMin = log10 100 = 2` and
`logMax = log10 10000 = 4` are exact in double precision, `logStep = 1`, and
`10 ** 2, 10 ** 3, 10 ** 4` are exact, so the boundary sequence is exactly
`100, 1000, 10000`. -/
def logBoundaryFreq100 : ℕ → ℚ :=
  fun i => if i = 0 then 100 else if i = 1 then 1000 else 10000

/-- Sum of `dataArray[i]` for `i ∈ [s, e)` — the accumulation loop
`for (let i = rangeStartIdx; i < rangeEndIdx; i++) sum += dataArray[i]`.
Out-of-range reads are totalized to 0 (JS would yield `undefined`); the
theorems below only use in-range indices. -/
def rangeSum (dataArray : List ℕ) (s e : ℤ) : ℚ :=
  ((List.range (e - s).toNat).map
    (fun j => (dataArray.getD (s + (j : ℤ)).toNat 0 : ℚ))).sum

/-- Per-bar bin sub-range of the linear bucketing (`src/unnamed/part_001`
lines 130–137): equal-width arithmetic split of `[startBin, endBin)`, the last
bar extended to `endBin`. -/
def linearBarRange (startBin endBin : ℤ) (barCount index : ℕ) : ℤ × ℤ :=
  let binRangePerBar : ℚ := ((endBin - startBin : ℤ) : ℚ) / (barCount : ℚ)
  let rangeStartIdx := Int.floor ((startBin : ℚ) + (index : ℚ) * binRangePerBar)
  let rangeEndIdx :=
    if index = barCount - 1 then endBin
    else Int.floor ((startBin : ℚ) + ((index : ℚ) + 1) * binRangePerBar)
  (rangeStartIdx, rangeEndIdx)

/-- Bar value of the linear bucketing (`src/unnamed/part_001` lines 139–159):
an empty sub-range yields value 0, otherwise `mean(buffer[start:end]) / ratio`
with no clamping. -/
def linearBarValue (dataArray : List ℕ) (ratio : ℚ) (startBin endBin : ℤ)
    (barCount index : ℕ) : ℚ :=
  let r := linearBarRange startBin endBin barCount index
  if r.2 ≤ r.1 then 0
  else
    let average := rangeSum dataArray r.1 r.2 / ((r.2 - r.1 : ℤ) : ℚ)
    average / ratio

/-- Bar value of the logarithmic bucketing (`AudioSpectrumAnalyzer.tsx` lines
136–183): an empty sub-range falls back to the single bin
`min(⌊freqStart·fftSize/sampleRate⌋, bufferLength − 1)`, otherwise
`mean(buffer[start:end]) / ratio` with no clamping. -/
def logBarValue (dataArray : List ℕ) (freqOf : ℕ → ℚ)
    (fftSize sampleRate ratio : ℚ) (startBin endBin : ℤ)
    (barCount bufferLength index : ℕ) : ℚ :=
  let r := logBarBinRange freqOf fftSize sampleRate startBin endBin barCount index
  if r.2 ≤ r.1 then
    let singleBinIdx := min (Int.floor (freqOf index * fftSize / sampleRate))
      ((bufferLength : ℤ) - 1)
    (dataArray.getD singleBinIdx.toNat 0 : ℚ) / ratio
  else
    let average := rangeSum dataArray r.1 r.2 / ((r.2 - r.1 : ℤ) : ℚ)
    average / ratio

/-- One published bar: stable ordinal `id`, mutable `value`. -/
structure BarData where
  id : ℕ
  value : ℚ
deriving DecidableEq, Repr

/-- The whole `setFrequencyBars(prevBars => prevBars.map(...))` publication of
the linear variant (`src/unnamed/part_001` lines 128–161). -/
def updateFrequencyBars (dataArray : List ℕ) (prevBars : List BarData)
    (ratio : ℚ) (startBin endBin : ℤ) (barCount : ℕ) : List BarData :=
  prevBars.mapIdx fun index bar =>
    ⟨bar.id, linearBarValue dataArray ratio startBin endBin barCount index⟩

/-- The whole publication of the logarithmic variant
(`AudioSpectrumAnalyzer.tsx` lines 136–184). -/
def logUpdateFrequencyBars (dataArray : List ℕ) (prevBars : List BarData)
    (freqOf : ℕ → ℚ) (fftSize sampleRate ratio : ℚ) (startBin endBin : ℤ)
    (barCount bufferLength : ℕ) : List BarData :=
  prevBars.mapIdx fun index bar =>
    ⟨bar.id, logBarValue dataArray freqOf fftSize sampleRate ratio startBin endBin
      barCount bufferLength index⟩

/-- The single-scalar volume reduction of `logData`
(`src/unnamed/part_000` lines 261–267): mean of the byte buffer divided by
`ratio` (default 50), clamped to 1 by `Math.min`. -/
def normalizedVolume (dataArray : List ℕ) (ratio : ℚ) : ℚ :=
  let totalVolume : ℚ := (dataArray.map (fun val => (val : ℚ))).sum
  let averageVolume := totalVolume / (dataArray.length : ℚ)
  min 1 (averageVolume / ratio)

/-- Constant boundary-frequency sequence used to instantiate the log-mode
fallback. -/
def constFreq100 : ℕ → ℚ := fun _ => 100

/-- `MAX_HISTORY_SEC` constant of `LinearHistoricalVolumeVisualizer`. -/
def MAX_HISTORY_SEC : ℤ := 3

/-- `SAMPLING_RATE` constant of `LinearHistoricalVolumeVisualizer`. -/
def SAMPLING_RATE : ℤ := 60

/-- `calculateMaxVisibleBars` (`src/unnamed/part_000` lines 232–254): the
time-based bound when the width is unmeasured or the bar geometry is
zero-width, otherwise the minimum of the width-based and time-based bounds. -/
def calculateMaxVisibleBars (containerWidth barWidthPx barSpacingPx : ℚ) : ℤ :=
  if containerWidth = 0 then MAX_HISTORY_SEC * SAMPLING_RATE
  else if barWidthPx + barSpacingPx = 0 then MAX_HISTORY_SEC * SAMPLING_RATE
  else
    min (Int.floor ((containerWidth + barSpacingPx) / (barWidthPx + barSpacingPx)))
      (MAX_HISTORY_SEC * SAMPLING_RATE)

/-- The `setAudioVolumeHistory` updater inside `logData`
(`src/unnamed/part_000` lines 270–280): append the new sample, then, if the
length exceeds the bound, drop exactly one oldest sample (`slice(1)`). -/
def pushHistory (maxBars : ℤ) (prevHistory : List ℚ) (vol : ℚ) : List ℚ :=
  let newHistory := prevHistory ++ [vol]
  if (newHistory.length : ℤ) > maxBars then newHistory.drop 1 else newHistory

/-- State of the `AudioSpectrumAnalyzer` component and its host scheduler:
`audioContext` / `analyzer` model the nullable refs, `animationFrameRef` the
stored callback id, `pending` the queue of scheduled-but-not-yet-fired
`requestAnimationFrame` callbacks, `nextId` the next fresh id (ids start at 1,
matching positive browser ids, so the source's truthiness test on the ref is
`Option.isSome`). -/
structure SpectrumState where
  audioContext : Bool
  analyzer : Bool
  animationFrameRef : Option ℕ
  pending : List ℕ
  nextId : ℕ
  bars : List BarData
deriving DecidableEq, Repr

/-- The zero-valued bar sequence `Array.from({length: barCount}, (_, i) => ({id: i, value: 0}))`. -/
def initBars (barCount : ℕ) : List BarData :=
  (List.range barCount).map fun i => ⟨i, 0⟩

/-- The component's initial state: no refs, nothing scheduled, zero bars. -/
def initSpectrumState (barCount : ℕ) : SpectrumState :=
  ⟨false, false, none, [], 1, initBars barCount⟩

/-- `startVisualization` (`AudioSpectrumAnalyzer.tsx` lines 189–222 /
`src/unnamed/part_001` lines 166–199): if the stream ref is null, return
immediately; otherwise create the context and analyzer, reset the bars to
zero, and schedule the first `updateFrequencyData` callback, storing its id
in the ref.  `streamAvailable` models `streamRef.current !== null`. -/
def startSpectrum (streamAvailable : Bool) (barCount : ℕ)
    (s : SpectrumState) : SpectrumState :=
  if streamAvailable then
    { audioContext := true, analyzer := true,
      animationFrameRef := some s.nextId,
      pending := s.pending ++ [s.nextId], nextId := s.nextId + 1,
      bars := initBars barCount }
  else s

/-- `stopVisualization` (`AudioSpectrumAnalyzer.tsx` lines 224–238): cancel
the callback named by the ref (if set), close the audio context, zero every
bar value.  The analyzer ref and the animation-frame ref themselves are not
cleared by the source. -/
def stopSpectrum (s : SpectrumState) : SpectrumState :=
  let pending' := match s.animationFrameRef with
    | some id => s.pending.erase id
    | none => s.pending
  { s with pending := pending', audioContext := false,
           bars := s.bars.map fun b => ⟨b.id, 0⟩ }

/-- One firing of a scheduled `updateFrequencyData` callback
(`src/unnamed/part_001` lines 110–164): the host dequeues the callback and
runs it; the body returns early if a ref is gone (no reschedule), skips
publication when the overall bin range is empty but still reschedules, and
otherwise publishes the aggregated bars and reschedules.  `dataArray` is the
magnitude buffer read from the analyzer during this tick. -/
def spectrumTick (fftSize sampleRate ratio : ℚ)
    (minFrequencyHz maxFrequencyKHz : Option ℚ) (barCount bufferLength : ℕ)
    (dataArray : List ℕ) (id : ℕ) (s : SpectrumState) : SpectrumState :=
  if id ∈ s.pending then
    let s0 := { s with pending := s.pending.erase id }
    if s0.analyzer && s0.audioContext then
      let r := getFrequencyBinRange fftSize minFrequencyHz maxFrequencyKHz
        sampleRate (bufferLength : ℤ)
      if r.endBin - r.startBin ≤ 0 then
        { s0 with pending := s0.pending ++ [s0.nextId], nextId := s0.nextId + 1,
                  animationFrameRef := some s0.nextId }
      else
        { s0 with
            bars := updateFrequencyBars dataArray s0.bars ratio r.startBin r.endBin barCount,
            pending := s0.pending ++ [s0.nextId], nextId := s0.nextId + 1,
            animationFrameRef := some s0.nextId }
    else s0
  else s

/-- State of the `LinearHistoricalVolumeVisualizer` component, analogous to
`SpectrumState` with the rolling volume history in place of the bars. -/
structure VolumeState where
  audioContext : Bool
  analyzer : Bool
  animationFrameRef : Option ℕ
  pending : List ℕ
  nextId : ℕ
  history : List ℚ
deriving DecidableEq, Repr

/-- The component's initial state: no refs, nothing scheduled, empty history. -/
def initVolumeState : VolumeState := ⟨false, false, none, [], 1, []⟩

/-- `startVisualization` (`src/unnamed/part_000` lines 289–306): guard on the
stream ref, set up context and analyzer, clear the history, schedule the
first `logData` callback. -/
def startVolume (streamAvailable : Bool) (s : VolumeState) : VolumeState :=
  if streamAvailable then
    { audioContext := true, analyzer := true,
      animationFrameRef := some s.nextId,
      pending := s.pending ++ [s.nextId], nextId := s.nextId + 1,
      history := [] }
  else s

/-- `stopVisualization` (`src/unnamed/part_000` lines 308–314): cancel the
callback named by the ref (if set) and close the audio context.  The history
is NOT cleared here — only `startVisualization` clears it. -/
def stopVolume (s : VolumeState) : VolumeState :=
  let pending' := match s.animationFrameRef with
    | some id => s.pending.erase id
    | none => s.pending
  { s with pending := pending', audioContext := false }

/-- One firing of a scheduled `logData` callback (`src/unnamed/part_000`
lines 256–287): return early if the analyzer ref is gone, otherwise push the
reduced volume scalar into the bounded history and reschedule. -/
def volumeTick (ratio containerWidth barWidthPx barSpacingPx : ℚ)
    (dataArray : List ℕ) (id : ℕ) (s : VolumeState) : VolumeState :=
  if id ∈ s.pending then
    let s0 := { s with pending := s.pending.erase id }
    if s0.analyzer then
      { s0 with
          history := pushHistory
            (calculateMaxVisibleBars containerWidth barWidthPx barSpacingPx)
            s0.history (normalizedVolume dataArray ratio),
          pending := s0.pending ++ [s0.nextId], nextId := s0.nextId + 1,
          animationFrameRef := some s0.nextId }
    else s0
  else s

/-- Unfolding lemma for `getFrequencyBinRange` when both bounds are given. -/
theorem getFrequencyBinRange_some_some (fftSize minHz maxKHz sampleRate : ℚ)
    (bufferLength : ℤ) :
    getFrequencyBinRange fftSize (some minHz) (some maxKHz) sampleRate bufferLength =
      ⟨max 0 (Int.floor (minHz * fftSize / sampleRate)),
       min (Int.ceil (maxKHz * 1000 * fftSize / sampleRate)) bufferLength⟩ := by
  rw [getFrequencyBinRange, if_neg (by simp)]; rfl

/-- C1: the claim asserts `startBin ≤ endBin ≤ bufferLength` with both ends
clamped into `[0, bufferLength]`, for every valid range and every
`bufferLength`.  The source clamps `startBin` only from below (`Math.max(0,·)`),
so a `minFrequencyHz` mapping above the buffer produces
`startBin > bufferLength ≥ endBin`: with `sampleRate = 44100`,
`fftSize = 1024`, `bufferLength = 512`, `minFrequencyHz = 44100`,
`maxFrequencyKHz = 88.2` (a valid range: `0 ≤ 44100 < 88200`), the result is
`startBin = 1024`, `endBin = 512`, violating both `startBin ≤ endBin` and
`startBin ≤ bufferLength`. -/
theorem getFrequencyBinRange_not_clamped_above :
    ((0 : ℚ) ≤ 44100 ∧ (44100 : ℚ) < (441 / 5) * 1000) ∧
    getFrequencyBinRange 1024 (some 44100) (some (441 / 5)) 44100 512 =
      ⟨1024, 512⟩ ∧
    ¬ ((getFrequencyBinRange 1024 (some 44100) (some (441 / 5)) 44100 512).startBin ≤
        (getFrequencyBinRange 1024 (some 44100) (some (441 / 5)) 44100 512).endBin) ∧
    ¬ ((getFrequencyBinRange 1024 (some 44100) (some (441 / 5)) 44100 512).startBin ≤ 512) := by
  have hf : Int.floor ((44100 : ℚ) * 1024 / 44100) = 1024 := by norm_num
  have hc : Int.ceil ((441 / 5 : ℚ) * 1000 * 1024 / 44100) = 2048 := by
    norm_num [Int.ceil_eq_iff]
  have he : getFrequencyBinRange 1024 (some 44100) (some (441 / 5)) 44100 512 =
      ⟨1024, 512⟩ := by
    rw [getFrequencyBinRange_some_some, hf, hc]; decide
  refine ⟨⟨by norm_num, by norm_num⟩, he, ?_, ?_⟩ <;> rw [he] <;> decide

/-- C1 (amended): for a valid frequency range, `startBin` equals the floor
formula clamped from below at 0 only, and `endBin` equals the ceil formula
clamped from above at `bufferLength` only; `0 ≤ startBin` and
`endBin ≤ bufferLength` always hold, and the full chain
`startBin ≤ endBin ≤ bufferLength` holds under the extra hypothesis
`⌊minHz·fftSize/sampleRate⌋ ≤ bufferLength` (automatic when
`minHz ≤ sampleRate/2` and `bufferLength = fftSize/2`). -/
theorem getFrequencyBinRange_spec (minHz maxKHz sampleRate fftSize : ℚ)
    (bufferLength : ℤ)
    (h1 : 0 ≤ minHz) (h2 : minHz < maxKHz * 1000)
    (h3 : 0 < sampleRate) (h4 : 0 < fftSize) (h5 : 0 ≤ bufferLength)
    (h6 : Int.floor (minHz * fftSize / sampleRate) ≤ bufferLength) :
    (getFrequencyBinRange fftSize (some minHz) (some maxKHz) sampleRate bufferLength).startBin =
      max 0 (Int.floor (minHz * fftSize / sampleRate)) ∧
    (getFrequencyBinRange fftSize (some minHz) (some maxKHz) sampleRate bufferLength).endBin =
      min (Int.ceil (maxKHz * 1000 * fftSize / sampleRate)) bufferLength ∧
    0 ≤ (getFrequencyBinRange fftSize (some minHz) (some maxKHz) sampleRate bufferLength).startBin ∧
    (getFrequencyBinRange fftSize (some minHz) (some maxKHz) sampleRate bufferLength).startBin ≤
      (getFrequencyBinRange fftSize (some minHz) (some maxKHz) sampleRate bufferLength).endBin ∧
    (getFrequencyBinRange fftSize (some minHz) (some maxKHz) sampleRate bufferLength).endBin ≤
      bufferLength := by
  rw [getFrequencyBinRange_some_some]
  have hk : 0 < fftSize / sampleRate := div_pos h4 h3
  have hmono : minHz * fftSize / sampleRate ≤ maxKHz * 1000 * fftSize / sampleRate := by
    rw [mul_div_assoc, mul_div_assoc]
    exact mul_le_mul_of_nonneg_right (le_of_lt h2) (le_of_lt hk)
  have hfc : Int.floor (minHz * fftSize / sampleRate) ≤
      Int.ceil (maxKHz * 1000 * fftSize / sampleRate) :=
    le_trans (Int.floor_le_floor hmono) (Int.floor_le_ceil _)
  have hc0 : (0 : ℤ) ≤ Int.ceil (maxKHz * 1000 * fftSize / sampleRate) := by
    apply Int.ceil_nonneg
    have hm : (0 : ℚ) ≤ maxKHz * 1000 := le_trans h1 (le_of_lt h2)
    rw [mul_div_assoc]
    exact mul_nonneg hm (le_of_lt hk)
  exact ⟨rfl, rfl, le_max_left _ _,
    max_le (le_min hc0 h5) (le_min hfc h6), min_le_right _ _⟩

/-- C1 amended, instantiated at the spec's own worked scenario
(`bufferLength=128`, `sampleRate=44100`, `fftSize=256`, `minHz=100`,
`maxKHz=8`, which evaluates to `startBin = 0`, `endBin = 47`). -/
theorem getFrequencyBinRange_spec_witness :
    (getFrequencyBinRange 256 (some 100) (some 8) 44100 128).startBin =
      max 0 (Int.floor ((100 : ℚ) * 256 / 44100)) ∧
    (getFrequencyBinRange 256 (some 100) (some 8) 44100 128).endBin =
      min (Int.ceil ((8 : ℚ) * 1000 * 256 / 44100)) 128 ∧
    0 ≤ (getFrequencyBinRange 256 (some 100) (some 8) 44100 128).startBin ∧
    (getFrequencyBinRange 256 (some 100) (some 8) 44100 128).startBin ≤
      (getFrequencyBinRange 256 (some 100) (some 8) 44100 128).endBin ∧
    (getFrequencyBinRange 256 (some 100) (some 8) 44100 128).endBin ≤ 128 :=
  getFrequencyBinRange_spec 100 8 44100 256 128 (by norm_num) (by norm_num)
    (by norm_num) (by norm_num) (by norm_num)
    (by have : Int.floor ((100 : ℚ) * 256 / 44100) = 0 := by norm_num [Int.floor_eq_iff]
        rw [this]; decide)

/-- C2: the claim asserts that adjacent log-mode sub-ranges share an endpoint
(no overlap).  The source computes bar `i`'s end with `Math.ceil` and bar
`i+1`'s start with `Math.floor` of the same boundary frequency, so whenever
that frequency maps to a non-integer bin position the ranges overlap by one
bin.  Concretely (`sampleRate = 44100`, `fftSize = 1024`,
`minFrequencyHz = 100`, `maxFrequencyKHz = 10`, `bufferLength = 512`,
`barCount = 2`): the overall range is `[2, 233)`, bar 0 gets `[2, 24)`, and
bar 1 gets `[23, 233)` — bar 1's start bin `23` is not bar 0's end bin `24`. -/
theorem logBarBinRange_overlap :
    getFrequencyBinRange 1024 (some 100) (some 10) 44100 512 = ⟨2, 233⟩ ∧
    logBarBinRange logBoundaryFreq100 1024 44100 2 233 2 0 = (2, 24) ∧
    logBarBinRange logBoundaryFreq100 1024 44100 2 233 2 1 = (23, 233) ∧
    (logBarBinRange logBoundaryFreq100 1024 44100 2 233 2 1).1 ≠
      (logBarBinRange logBoundaryFreq100 1024 44100 2 233 2 0).2 := by
  have hf100 : Int.floor ((100 : ℚ) * 1024 / 44100) = 2 := by
    norm_num [Int.floor_eq_iff]
  have hc10000 : Int.ceil ((10 : ℚ) * 1000 * 1024 / 44100) = 233 := by
    norm_num [Int.ceil_eq_iff]
  have hf1000 : Int.floor ((1000 : ℚ) * 1024 / 44100) = 23 := by
    norm_num [Int.floor_eq_iff]
  have hc1000 : Int.ceil ((1000 : ℚ) * 1024 / 44100) = 24 := by
    norm_num [Int.ceil_eq_iff]
  have hc1000n : Int.ceil ((10240 / 441 : ℚ)) = 24 := by
    norm_num [Int.ceil_eq_iff]
  have h0 : logBarBinRange logBoundaryFreq100 1024 44100 2 233 2 0 = (2, 24) := by
    rw [logBarBinRange]
    simp only [logBoundaryFreq100]
    norm_num [hf100, hc1000, hc1000n]
  have h1 : logBarBinRange logBoundaryFreq100 1024 44100 2 233 2 1 = (23, 233) := by
    rw [logBarBinRange]
    simp only [logBoundaryFreq100]
    norm_num [hf1000]
  refine ⟨?_, h0, h1, ?_⟩
  · rw [getFrequencyBinRange_some_some, hf100, hc10000]; decide
  · rw [h0, h1]; decide

/-- C2 (amended): the log-mode sub-ranges, taken in bar order, leave no gap —
each bar's start bin is at most (not necessarily equal to) the previous bar's
end bin, overlapping by up to one bin where the shared boundary frequency's
floor and ceil differ — provided every interior boundary frequency maps into
`[startBin, endBin]`; and the last bar's end bin equals `endBin`. -/
theorem logBarBinRange_no_gap (freqOf : ℕ → ℚ) (fftSize sampleRate : ℚ)
    (startBin endBin : ℤ) (barCount : ℕ)
    (hse : startBin ≤ endBin)
    (hlo : ∀ i, 1 ≤ i → i < barCount →
      startBin ≤ Int.ceil (freqOf i * fftSize / sampleRate))
    (hhi : ∀ i, 1 ≤ i → i < barCount →
      Int.floor (freqOf i * fftSize / sampleRate) ≤ endBin) :
    (logBarBinRange freqOf fftSize sampleRate startBin endBin barCount
        (barCount - 1)).2 = endBin ∧
    ∀ i, i + 1 < barCount →
      (logBarBinRange freqOf fftSize sampleRate startBin endBin barCount (i + 1)).1 ≤
        (logBarBinRange freqOf fftSize sampleRate startBin endBin barCount i).2 := by
  constructor
  · rw [logBarBinRange]
    simp [min_eq_right (le_refl endBin)]
  · intro i hi
    have hne : i ≠ barCount - 1 := by omega
    have h1i : 1 ≤ i + 1 := by omega
    rw [logBarBinRange, logBarBinRange]
    simp only [if_neg hne]
    exact max_le
      (le_min hse (hlo (i + 1) h1i hi))
      (le_min (hhi (i + 1) h1i hi) (Int.floor_le_ceil _))

/-- C2 amended, instantiated at the overlap scenario: no gap between bars 0
and 1, and bar 1 (the last bar) ends exactly at `endBin = 233`. -/
theorem logBarBinRange_no_gap_witness :
    (logBarBinRange logBoundaryFreq100 1024 44100 2 233 2 (2 - 1)).2 = 233 ∧
    (logBarBinRange logBoundaryFreq100 1024 44100 2 233 2 (0 + 1)).1 ≤
      (logBarBinRange logBoundaryFreq100 1024 44100 2 233 2 0).2 := by
  have hlo : ∀ i, 1 ≤ i → i < 2 →
      (2 : ℤ) ≤ Int.ceil (logBoundaryFreq100 i * 1024 / 44100) := by
    intro i h1 h2
    have hi : i = 1 := by omega
    subst hi
    have h24 : Int.ceil ((10240 / 441 : ℚ)) = 24 := by norm_num [Int.ceil_eq_iff]
    simp only [logBoundaryFreq100]
    norm_num [h24]
  have hhi : ∀ i, 1 ≤ i → i < 2 →
      Int.floor (logBoundaryFreq100 i * 1024 / 44100) ≤ (233 : ℤ) := by
    intro i h1 h2
    have hi : i = 1 := by omega
    subst hi
    have : Int.floor ((1000 : ℚ) * 1024 / 44100) = 23 := by norm_num [Int.floor_eq_iff]
    simp only [logBoundaryFreq100]
    norm_num [this]
  exact ⟨(logBarBinRange_no_gap logBoundaryFreq100 1024 44100 2 233 2
      (by decide) hlo hhi).1,
    (logBarBinRange_no_gap logBoundaryFreq100 1024 44100 2 233 2
      (by decide) hlo hhi).2 0 (by decide)⟩

/-- C4: the claim asserts that neither the spectrum aggregation nor the
single-scalar volume reduction truncates values exceeding 1.  The volume
reduction (`logData`, `src/unnamed/part_000` line 267) computes
`Math.min(1, averageVolume / ratio)`: for the buffer `[255]` and ratio `50`
the quotient is `51/10 > 1` but the produced value is `1`. -/
theorem normalizedVolume_truncates :
    normalizedVolume [255] 50 = 1 ∧
    (1 : ℚ) < (255 : ℚ) / 1 / 50 ∧
    normalizedVolume [255] 50 ≠ (255 : ℚ) / 1 / 50 := by
  refine ⟨?_, by norm_num, ?_⟩ <;> simp [normalizedVolume] <;> norm_num [min_eq_left]

/-- C4 (amended): the spectrum aggregation value is exactly
`mean(buffer[start:end]) / ratio`, not truncated at 1; the single-scalar
volume reduction is `min(1, mean(buffer)/ratio)`, hence never exceeds 1. -/
theorem aggregate_clamp_contract (dataArray : List ℕ) (ratio : ℚ)
    (startBin endBin : ℤ) (barCount index : ℕ)
    (hne : (linearBarRange startBin endBin barCount index).1 <
      (linearBarRange startBin endBin barCount index).2) :
    linearBarValue dataArray ratio startBin endBin barCount index =
      rangeSum dataArray (linearBarRange startBin endBin barCount index).1
          (linearBarRange startBin endBin barCount index).2 /
        (((linearBarRange startBin endBin barCount index).2 -
          (linearBarRange startBin endBin barCount index).1 : ℤ) : ℚ) / ratio ∧
    normalizedVolume dataArray ratio =
      min 1 ((dataArray.map (fun val => (val : ℚ))).sum / (dataArray.length : ℚ) / ratio) ∧
    normalizedVolume dataArray ratio ≤ 1 := by
  refine ⟨?_, rfl, min_le_left _ _⟩
  simp only [linearBarValue]
  rw [if_neg (not_le.mpr hne)]

/-- Evaluation: the single bar over `[0, 1)` gets the whole range. -/
theorem linearBarRange_one_bar : linearBarRange 0 1 1 0 = (0, 1) := by
  simp only [linearBarRange]
  norm_num

/-- C4 amended, instantiated: buffer `[255]`, full one-bar range, ratio 50 —
the spectrum value `51/10` exceeds 1 and is not truncated, while the volume
reduction on the same buffer is capped at 1. -/
theorem aggregate_clamp_contract_witness :
    linearBarValue [255] 50 0 1 1 0 =
      rangeSum [255] (linearBarRange 0 1 1 0).1 (linearBarRange 0 1 1 0).2 /
        (((linearBarRange 0 1 1 0).2 - (linearBarRange 0 1 1 0).1 : ℤ) : ℚ) / 50 ∧
    normalizedVolume [255] 50 =
      min 1 (([255].map (fun val => (val : ℚ))).sum / (([255] : List ℕ).length : ℚ) / 50) ∧
    normalizedVolume [255] 50 ≤ 1 :=
  aggregate_clamp_contract [255] 50 0 1 1 0
    (by rw [linearBarRange_one_bar]; decide)

/-- C7: the claim asserts that every empty per-bar sub-range falls back to
sampling the nearest single bin, in every aggregation path.  The linear
variant (`src/unnamed/part_001` lines 140–145) instead publishes the value 0:
with `startBin = 0`, `endBin = 1`, `barCount = 2`, bar 0's sub-range is
`[0, 0)` (empty) and its value is 0, although the nearest bin holds 100 and
`100 / 50 = 2 ≠ 0`. -/
theorem linear_empty_subrange_yields_zero :
    linearBarRange 0 1 2 0 = (0, 0) ∧
    linearBarValue [100] 50 0 1 2 0 = 0 ∧
    (100 : ℚ) / 50 ≠ 0 := by
  have h : linearBarRange 0 1 2 0 = (0, 0) := by
    simp only [linearBarRange]
    norm_num [Int.floor_eq_iff]
  refine ⟨h, ?_, by norm_num⟩
  simp only [linearBarValue, h]
  norm_num

/-- C7 (amended): an empty per-bar sub-range always yields a defined value,
but the fallback differs by variant — the logarithmic aggregation
(`AudioSpectrumAnalyzer.tsx` lines 156–168) samples the single bin
`min(⌊freqStart·fftSize/sampleRate⌋, bufferLength−1)` divided by `ratio`,
while the linear aggregation (`src/unnamed/part_001` lines 140–145)
publishes 0. -/
theorem empty_subrange_fallback (dataArray : List ℕ) (freqOf : ℕ → ℚ)
    (fftSize sampleRate ratio : ℚ) (startBin endBin : ℤ)
    (barCount bufferLength index : ℕ)
    (startBin' endBin' : ℤ) (barCount' index' : ℕ)
    (hlog : (logBarBinRange freqOf fftSize sampleRate startBin endBin barCount index).2 ≤
      (logBarBinRange freqOf fftSize sampleRate startBin endBin barCount index).1)
    (hlin : (linearBarRange startBin' endBin' barCount' index').2 ≤
      (linearBarRange startBin' endBin' barCount' index').1) :
    logBarValue dataArray freqOf fftSize sampleRate ratio startBin endBin
        barCount bufferLength index =
      (dataArray.getD (min (Int.floor (freqOf index * fftSize / sampleRate))
        ((bufferLength : ℤ) - 1)).toNat 0 : ℚ) / ratio ∧
    linearBarValue dataArray ratio startBin' endBin' barCount' index' = 0 := by
  constructor
  · simp only [logBarValue]
    rw [if_pos hlog]
  · simp only [linearBarValue]
    rw [if_pos hlin]

/-- C7 amended, instantiated: buffer `[7, 8, 9]`, `bufferLength = 3`; the
log-mode bar with collapsed range `[5, 3)` samples `buffer[min(2, 2)] = 9`
giving `9/10`, and the linear bar with empty range `[0, 0)` yields 0. -/
theorem empty_subrange_fallback_witness :
    logBarValue [7, 8, 9] constFreq100 1024 44100 10 5 3 2 3 0 =
      (([7, 8, 9] : List ℕ).getD (min (Int.floor (constFreq100 0 * 1024 / 44100))
        ((3 : ℤ) - 1)).toNat 0 : ℚ) / 10 ∧
    linearBarValue [7, 8, 9] 10 0 1 2 0 = 0 :=
  empty_subrange_fallback [7, 8, 9] constFreq100 1024 44100 10 5 3 2 3 0 0 1 2 0
    (by
      have hf : Int.floor ((100 : ℚ) * 1024 / 44100) = 2 := by
        norm_num [Int.floor_eq_iff]
      have hcl : Int.ceil ((100 : ℚ) * 1024 / 44100) = 3 := by
        norm_num [Int.ceil_eq_iff]
      simp only [logBarBinRange, constFreq100]
      norm_num [hf, hcl])
    (by
      have h : linearBarRange 0 1 2 0 = (0, 0) := by
        simp only [linearBarRange]
        norm_num [Int.floor_eq_iff]
      rw [h])

/-- C9: the per-frame aggregation is deterministic — it is a pure function of
the buffer, the previous bars and the parameters, so two invocations with
equal inputs produce equal bar sequences, for both the linear and the
logarithmic variant. -/
theorem aggregate_deterministic (d1 d2 : List ℕ) (p1 p2 : List BarData)
    (r1 r2 : ℚ) (s1 s2 e1 e2 : ℤ) (b1 b2 : ℕ)
    (f1 f2 : ℕ → ℚ) (ff1 ff2 sr1 sr2 : ℚ) (bl1 bl2 : ℕ)
    (hd : d1 = d2) (hp : p1 = p2) (hr : r1 = r2) (hs : s1 = s2) (he : e1 = e2)
    (hb : b1 = b2) (hf : f1 = f2) (hff : ff1 = ff2) (hsr : sr1 = sr2)
    (hbl : bl1 = bl2) :
    updateFrequencyBars d1 p1 r1 s1 e1 b1 = updateFrequencyBars d2 p2 r2 s2 e2 b2 ∧
    logUpdateFrequencyBars d1 p1 f1 ff1 sr1 r1 s1 e1 b1 bl1 =
      logUpdateFrequencyBars d2 p2 f2 ff2 sr2 r2 s2 e2 b2 bl2 := by
  subst hd hp hr hs he hb hf hff hsr hbl
  exact ⟨rfl, rfl⟩

/-- C9, instantiated at one concrete input pair. -/
theorem aggregate_deterministic_witness :
    updateFrequencyBars [10, 20] [⟨0, 0⟩, ⟨1, 0⟩] 512 0 2 2 =
      updateFrequencyBars [10, 20] [⟨0, 0⟩, ⟨1, 0⟩] 512 0 2 2 ∧
    logUpdateFrequencyBars [10, 20] [⟨0, 0⟩, ⟨1, 0⟩] constFreq100 1024 44100 512 0 2 2 2 =
      logUpdateFrequencyBars [10, 20] [⟨0, 0⟩, ⟨1, 0⟩] constFreq100 1024 44100 512 0 2 2 2 :=
  aggregate_deterministic [10, 20] [10, 20] [⟨0, 0⟩, ⟨1, 0⟩] [⟨0, 0⟩, ⟨1, 0⟩]
    512 512 0 0 2 2 2 2 constFreq100 constFreq100 1024 1024 44100 44100 2 2
    rfl rfl rfl rfl rfl rfl rfl rfl rfl rfl

/-- C3: the claim asserts the window length never exceeds the bound in effect
at each push, for every push sequence.  `slice(1)` evicts exactly one sample,
so when the bound shrinks between pushes (the viewport narrowed from 2 bars to
1: `calculateMaxVisibleBars 2 1 0 = 2`, `calculateMaxVisibleBars 1 1 0 = 1`)
the window after the third push has length 2, exceeding the in-effect bound
1. -/
theorem pushHistory_exceeds_shrunk_bound :
    calculateMaxVisibleBars 2 1 0 = 2 ∧
    calculateMaxVisibleBars 1 1 0 = 1 ∧
    pushHistory (calculateMaxVisibleBars 1 1 0)
        (pushHistory (calculateMaxVisibleBars 2 1 0)
          (pushHistory (calculateMaxVisibleBars 2 1 0) [] (1 / 4)) (1 / 2)) (3 / 4) =
      [1 / 2, 3 / 4] ∧
    ¬ (((pushHistory (calculateMaxVisibleBars 1 1 0)
        (pushHistory (calculateMaxVisibleBars 2 1 0)
          (pushHistory (calculateMaxVisibleBars 2 1 0) [] (1 / 4)) (1 / 2))
            (3 / 4)).length : ℤ) ≤ calculateMaxVisibleBars 1 1 0) := by
  have h2 : calculateMaxVisibleBars 2 1 0 = 2 := by
    have hf : Int.floor (((2 : ℚ) + 0) / (1 + 0)) = 2 := by norm_num
    rw [calculateMaxVisibleBars, if_neg (by norm_num), if_neg (by norm_num), hf]
    decide
  have h1 : calculateMaxVisibleBars 1 1 0 = 1 := by
    have hf : Int.floor (((1 : ℚ) + 0) / (1 + 0)) = 1 := by norm_num
    rw [calculateMaxVisibleBars, if_neg (by norm_num), if_neg (by norm_num), hf]
    decide
  have p1 : pushHistory 2 [] (1 / 4) = [1 / 4] := by
    norm_num [pushHistory]
  have p2 : pushHistory 2 [1 / 4] (1 / 2) = [1 / 4, 1 / 2] := by
    norm_num [pushHistory]
  have p3 : pushHistory 1 [1 / 4, 1 / 2] (3 / 4) = [1 / 2, 3 / 4] := by
    norm_num [pushHistory]
  rw [h1, h2, p1, p2, p3]
  refine ⟨rfl, rfl, rfl, by decide⟩

/-- Fixed-bound fold invariant: pushing a sequence onto a window that is
within the bound keeps exactly the most recent elements — the result is the
suffix of `h ++ vs` obtained by dropping everything beyond the bound. -/
theorem pushHistory_foldl (B : ℤ) (hB : 0 ≤ B) :
    ∀ (vs : List ℚ) (h : List ℚ), h.length ≤ B.toNat →
      vs.foldl (pushHistory B) h =
        (h ++ vs).drop (h.length + vs.length - B.toNat) := by
  intro vs
  induction vs with
  | nil =>
    intro h hh
    simp [Nat.sub_eq_zero_of_le hh]
  | cons v vs ih =>
    intro h hh
    rw [List.foldl_cons]
    have happ : h ++ v :: vs = (h ++ [v]) ++ vs := by
      rw [List.append_assoc]; rfl
    by_cases hlen : ((h ++ [v]).length : ℤ) > B
    · have hEq : h.length = B.toNat := by
        simp only [List.length_append, List.length_singleton, List.length_cons, List.length_nil] at hlen
        omega
      have hpush : pushHistory B h v = (h ++ [v]).drop 1 := by
        rw [pushHistory, if_pos hlen]
      have hlen' : ((h ++ [v]).drop 1).length ≤ B.toNat := by
        simp [hEq]
      rw [hpush, ih _ hlen', happ]
      have hdlen : ((h ++ [v]).drop 1).length = B.toNat := by
        simp [hEq]
      rw [hdlen]
      have hsplit : ((h ++ [v]) ++ vs).drop 1 = (h ++ [v]).drop 1 ++ vs :=
        List.drop_append_of_le_length (by simp)
      rw [← hsplit, List.drop_drop]
      congr 1
      simp only [List.length_append, List.length_singleton, List.length_cons, List.length_nil]
      omega
    · have hpush : pushHistory B h v = h ++ [v] := by
        rw [pushHistory, if_neg hlen]
      have hlen' : (h ++ [v]).length ≤ B.toNat := by
        simp only [List.length_append, List.length_singleton, List.length_cons, List.length_nil] at hlen ⊢
        omega
      rw [hpush, ih _ hlen', happ]
      congr 1
      simp only [List.length_append, List.length_singleton, List.length_cons, List.length_nil]
      omega

/-- The in-effect bound is never negative for nonnegative geometry. -/
theorem calculateMaxVisibleBars_nonneg (w bw bs : ℚ)
    (hw : 0 ≤ w) (hbw : 0 ≤ bw) (hbs : 0 ≤ bs) :
    0 ≤ calculateMaxVisibleBars w bw bs := by
  rw [calculateMaxVisibleBars]
  split
  · decide
  · split
    · decide
    · refine le_min ?_ (by decide)
      exact Int.le_floor.mpr (by
        simpa using div_nonneg (add_nonneg hw hbs) (add_nonneg hbw hbs))

/-- C3 (amended): when the geometry — and hence the bound
`min(widthBound, timeBound)` — is unchanged across the pushes, the window
built from empty is exactly the suffix of the pushed values of length at most
the bound (the most recent samples, in append order), so in particular its
length never exceeds the bound.  (When the bound shrinks between pushes, a
push evicts only one sample, so the length can temporarily exceed the new
bound.) -/
theorem volume_window_bound (w bw bs : ℚ)
    (hw : 0 ≤ w) (hbw : 0 ≤ bw) (hbs : 0 ≤ bs) (vs : List ℚ) :
    vs.foldl (pushHistory (calculateMaxVisibleBars w bw bs)) [] =
      vs.drop (vs.length - (calculateMaxVisibleBars w bw bs).toNat) ∧
    ((vs.foldl (pushHistory (calculateMaxVisibleBars w bw bs)) []).length : ℤ) ≤
      calculateMaxVisibleBars w bw bs := by
  have hB := calculateMaxVisibleBars_nonneg w bw bs hw hbw hbs
  have hfold := pushHistory_foldl (calculateMaxVisibleBars w bw bs) hB vs []
    (by simp)
  rw [List.nil_append, List.length_nil, Nat.zero_add] at hfold
  refine ⟨hfold, ?_⟩
  rw [hfold, List.length_drop]
  omega

/-- C3 amended, instantiated: viewport of 2 bars, three pushes — the window is
the last two samples `[1/2, 3/4]`, within the bound 2. -/
theorem volume_window_bound_witness :
    [1 / 4, 1 / 2, 3 / 4].foldl (pushHistory (calculateMaxVisibleBars 2 1 0)) [] =
      [1 / 4, 1 / 2, 3 / 4].drop
        (([1 / 4, 1 / 2, 3 / 4] : List ℚ).length - (calculateMaxVisibleBars 2 1 0).toNat) ∧
    ((([1 / 4, 1 / 2, 3 / 4] : List ℚ).foldl
        (pushHistory (calculateMaxVisibleBars 2 1 0)) []).length : ℤ) ≤
      calculateMaxVisibleBars 2 1 0 :=
  volume_window_bound 2 1 0 (by norm_num) (by norm_num) (by norm_num)
    [1 / 4, 1 / 2, 3 / 4]

/-- C5: the claim asserts that `stop()` resets both persistent structures to
the `start()` baseline (bars all zero, volume window empty).  The volume
visualizer's `stopVisualization` (`src/unnamed/part_000` lines 308–314) does
not touch the history: starting, ticking once on buffer `[255]` (pushing the
sample 1), then stopping leaves the window `[1] ≠ []`. -/
theorem stop_leaves_history_nonempty :
    (stopVolume (volumeTick 50 0 7 1 [255] 1 (startVolume true initVolumeState))).history =
      [1] ∧ ([1] : List ℚ) ≠ ([] : List ℚ) := by
  have hs : startVolume true initVolumeState =
      ⟨true, true, some 1, [1], 2, []⟩ := rfl
  have hv : normalizedVolume [255] 50 = 1 := by
    norm_num [normalizedVolume, min_eq_left]
  have hb : calculateMaxVisibleBars 0 7 1 = 180 := by
    rw [calculateMaxVisibleBars, if_pos rfl]; decide
  have ht : volumeTick 50 0 7 1 [255] 1 (startVolume true initVolumeState) =
      ⟨true, true, some 2, [2], 3, [1]⟩ := by
    rw [hs, volumeTick, if_pos (by decide)]
    simp only [hb, hv, pushHistory]
    norm_num
  rw [ht]
  exact ⟨rfl, by simp⟩

/-- C5 (amended): `stop()` zeroes every spectrum bar value, but leaves the
volume-history window untouched; the window is cleared to empty by
`start()`, not by `stop()`. -/
theorem stop_resets_bars_not_history :
    (∀ s : SpectrumState, (stopSpectrum s).bars = s.bars.map fun b => ⟨b.id, 0⟩) ∧
    (∀ s : VolumeState, (stopVolume s).history = s.history) ∧
    (∀ s : VolumeState, (startVolume true s).history = ([] : List ℚ)) :=
  ⟨fun _ => rfl, fun _ => rfl, fun _ => rfl⟩

/-- C6: the claim asserts that a second `start()` without an intervening
`stop()` leaves exactly one active tick chain.  `startVisualization` never
cancels the previously scheduled callback (it only overwrites the ref), so
after two starts from the idle initial state two callbacks are pending — two
independent tick chains, each republishing the bars every frame. -/
theorem double_start_two_chains :
    (startSpectrum true 16 (startSpectrum true 16 (initSpectrumState 16))).pending.length = 2 ∧
    (2 : ℕ) ≠ 1 := by
  exact ⟨rfl, by decide⟩

/-- C6 (amended): every `start()` with a stream available adds exactly one
scheduled callback and cancels none, so a single `start()` from a quiescent
state leaves one active tick chain, and a second `start()` without `stop()`
leaves two (bars are then published twice per frame). -/
theorem start_adds_one_chain :
    (∀ (barCount : ℕ) (s : SpectrumState),
      (startSpectrum true barCount s).pending.length = s.pending.length + 1) ∧
    (startSpectrum true 16 (initSpectrumState 16)).pending.length = 1 ∧
    (startSpectrum true 16 (startSpectrum true 16 (initSpectrumState 16))).pending.length = 2 := by
  refine ⟨fun barCount s => ?_, rfl, rfl⟩
  simp [startSpectrum]

/-- C8: with no audio source, `start()` is a silent no-op — the state
(bars/history, scheduler queue, refs) is returned unchanged, so no bars are
produced and no tick is scheduled — and a later retry with a source available
behaves exactly as a fresh `start()`: it succeeds, acquiring the context and
scheduling one tick. -/
theorem start_noop_without_source :
    (∀ (barCount : ℕ) (s : SpectrumState), startSpectrum false barCount s = s) ∧
    (∀ s : VolumeState, startVolume false s = s) ∧
    (∀ (barCount : ℕ) (s : SpectrumState),
      startSpectrum true barCount (startSpectrum false barCount s) =
        startSpectrum true barCount s) ∧
    (∀ (barCount : ℕ) (s : SpectrumState),
      (startSpectrum true barCount s).audioContext = true ∧
      (startSpectrum true barCount s).pending.length = s.pending.length + 1) := by
  refine ⟨fun _ _ => rfl, fun _ => rfl, fun _ _ => rfl, fun barCount s => ⟨rfl, ?_⟩⟩
  simp [startSpectrum]

/-- C10: when the computed overall bin range is empty
(`endBin ≤ startBin`), the fired tick publishes nothing — every bar keeps its
previous value — yet still schedules the next tick. -/
theorem empty_range_tick_keeps_bars (fftSize sampleRate ratio : ℚ)
    (minFrequencyHz maxFrequencyKHz : Option ℚ) (barCount bufferLength : ℕ)
    (dataArray : List ℕ) (id : ℕ) (s : SpectrumState)
    (hid : id ∈ s.pending) (han : s.analyzer = true) (hac : s.audioContext = true)
    (hr : (getFrequencyBinRange fftSize minFrequencyHz maxFrequencyKHz sampleRate
        (bufferLength : ℤ)).endBin ≤
      (getFrequencyBinRange fftSize minFrequencyHz maxFrequencyKHz sampleRate
        (bufferLength : ℤ)).startBin) :
    (spectrumTick fftSize sampleRate ratio minFrequencyHz maxFrequencyKHz barCount
        bufferLength dataArray id s).bars = s.bars ∧
    (spectrumTick fftSize sampleRate ratio minFrequencyHz maxFrequencyKHz barCount
        bufferLength dataArray id s).pending = s.pending.erase id ++ [s.nextId] ∧
    (spectrumTick fftSize sampleRate ratio minFrequencyHz maxFrequencyKHz barCount
        bufferLength dataArray id s).animationFrameRef = some s.nextId := by
  rw [spectrumTick]
  rw [if_pos hid]
  simp only [han, hac, Bool.and_self, if_true]
  rw [if_pos (sub_nonpos.mpr hr)]
  exact ⟨rfl, rfl, rfl⟩

/-- C10, instantiated: config `fftSize = 1024`, `sampleRate = 44100`,
`minFrequencyHz = 44100`, `maxFrequencyKHz` unset, `bufferLength = 512` gives
the empty range `[1024, 512)`; firing the single scheduled tick after a
successful start leaves the bars untouched and schedules callback 2. -/
theorem empty_range_tick_keeps_bars_witness :
    (spectrumTick 1024 44100 512 (some 44100) none 4 512 [] 1
        (startSpectrum true 4 (initSpectrumState 4))).bars =
      (startSpectrum true 4 (initSpectrumState 4)).bars ∧
    (spectrumTick 1024 44100 512 (some 44100) none 4 512 [] 1
        (startSpectrum true 4 (initSpectrumState 4))).pending =
      (startSpectrum true 4 (initSpectrumState 4)).pending.erase 1 ++
        [(startSpectrum true 4 (initSpectrumState 4)).nextId] ∧
    (spectrumTick 1024 44100 512 (some 44100) none 4 512 [] 1
        (startSpectrum true 4 (initSpectrumState 4))).animationFrameRef =
      some (startSpectrum true 4 (initSpectrumState 4)).nextId :=
  empty_range_tick_keeps_bars 1024 44100 512 (some 44100) none 4 512 [] 1
    (startSpectrum true 4 (initSpectrumState 4))
    (by decide) rfl rfl
    (by
      have hf : Int.floor ((44100 : ℚ) * 1024 / 44100) = 1024 := by norm_num
      have hc : Int.ceil (((44100 : ℚ) / 2000) * 1000 * 1024 / 44100) = 512 := by
        norm_num
      rw [getFrequencyBinRange, if_neg (by simp)]
      simp only [Option.getD_some, Option.getD_none]
      rw [hf, hc]
      decide)
